import Mathlib

/-!
Shallow embedding of the muxxy core (filename parsing, match scoring,
subtitle timing shift, subtitle resampling) and proofs about it.

Sources embedded:
  src/modules/constants.py  (regex pattern tables)
  src/modules/parsers.py    (extract_episode_info, extract_show_name)
  src/modules/matcher.py    (Matcher._score_match, Matcher._string_similarity,
                             Matcher.match_single)
  src/modules/subtitles.py  (shift_subtitle_timing, resample_ass_subtitle)

Python regular expressions are embedded by a small backtracking regex
engine (`RE` / `reRun`) that mirrors the CPython `re` semantics used by
these patterns: leftmost match, greedy/lazy quantifiers by backtracking,
ordered alternation, capture groups, negative lookahead, single-character
negative lookbehind, and the end anchor.  The engine is fuel-bounded so
that it is structurally recursive; the fuel bounds only the backtracking
depth and is chosen far beyond what these patterns can use on the inputs
appearing below.

Python `float` arithmetic is modelled by exact rationals (ℚ).  The spots
where a claim depends on a numeric comparison are all far away from any
binary-rounding boundary, and this is noted at each such spot.
-/

namespace Muxxy

/-! ### A tiny backtracking regex engine -/

/-- Abstract syntax of the regular expressions used by the repository.
`cls p` is a character class, `star a lazy` a Kleene star (lazy when the
flag is set), `group n a` a capturing group, `nla a` a negative lookahead
`(?!a)`, `nlb p` a single-character negative lookbehind `(?<!c)` for `c`
in the class `p`, and `eos` the `$` anchor. -/
inductive RE where
  | eps
  | chr (c : Char)
  | cls (p : Char → Bool)
  | seq (a b : RE)
  | alt (a b : RE)
  | star (a : RE) (lazy : Bool)
  | group (n : Nat) (a : RE)
  | nla (a : RE)
  | nlb (p : Char → Bool)
  | eos

/-- Capture list: `(group index, start, end)`, most recent first. -/
abbrev Groups := List (Nat × Nat × Nat)

/-- Character of `s` at position `i` (the default is never used at
in-range positions). -/
def charAt (s : List Char) (i : Nat) : Char := s.getD i (Char.ofNat 0)

/-- Backtracking matcher in continuation-passing style.  `reRun s fuel r
pos g k` tries to match `r` at position `pos` of `s` with captures `g`,
calling `k` on every candidate continuation position in the engine's
preference order (greedy: longer first; lazy: shorter first; alternation:
left first) and returning the first success, exactly as the CPython
backtracking engine does for these patterns. -/
def reRun (s : List Char) :
    Nat → RE → Nat → Groups → (Nat → Groups → Option (Nat × Groups)) →
    Option (Nat × Groups)
  | 0, _, _, _, _ => none
  | fuel + 1, r, pos, g, k =>
    match r with
    | .eps => k pos g
    | .chr c =>
        if pos < s.length ∧ charAt s pos = c then k (pos + 1) g else none
    | .cls p =>
        if pos < s.length ∧ p (charAt s pos) then k (pos + 1) g else none
    | .seq a b =>
        reRun s fuel a pos g (fun p2 g2 => reRun s fuel b p2 g2 k)
    | .alt a b =>
        (reRun s fuel a pos g k) <|> (reRun s fuel b pos g k)
    | .star a lz =>
        let again := fun p2 g2 =>
          if p2 = pos then k p2 g2 else reRun s fuel (.star a lz) p2 g2 k
        if lz then (k pos g) <|> (reRun s fuel a pos g again)
        else (reRun s fuel a pos g again) <|> (k pos g)
    | .group n a =>
        reRun s fuel a pos g (fun p2 g2 => k p2 ((n, pos, p2) :: g2))
    | .nla a =>
        match reRun s fuel a pos g (fun p2 g2 => some (p2, g2)) with
        | some _ => none
        | none => k pos g
    | .nlb p =>
        if pos = 0 then k pos g
        else if p (charAt s (pos - 1)) then none else k pos g
    | .eos => if pos = s.length then k pos g else none

/-- Fuel bound for one anchored match attempt; the engine's recursion
depth on the patterns below is linear in the input length, so this is a
generous over-approximation. -/
def reFuel (s : List Char) : Nat := 10000 + 200 * s.length

/-- One anchored match attempt at `pos`: end position and captures. -/
def reMatchAt (r : RE) (s : List Char) (pos : Nat) : Option (Nat × Groups) :=
  reRun s (reFuel s) r pos [] (fun e g => some (e, g))

/-- `re.search` from position `pos` on: the leftmost match, as
`(start, end, captures)`. -/
def reSearchAux (r : RE) (s : List Char) : Nat → Nat → Option (Nat × Nat × Groups)
  | 0, _ => none
  | fuel + 1, pos =>
    match reMatchAt r s pos with
    | some (e, g) => some (pos, e, g)
    | none => if pos < s.length then reSearchAux r s fuel (pos + 1) else none

/-- `re.search`: leftmost match of `r` in `s`. -/
def reSearch (r : RE) (s : List Char) : Option (Nat × Nat × Groups) :=
  reSearchAux r s (s.length + 1) 0

/-- `re.finditer`, restricted to the spans: the non-overlapping matches
found left to right (an empty match advances by one, as in CPython). -/
def reFindIterAux (r : RE) (s : List Char) : Nat → Nat → List (Nat × Nat)
  | 0, _ => []
  | fuel + 1, pos =>
    if pos > s.length then []
    else
      match reSearchAux r s (s.length + 1 - pos) pos with
      | none => []
      | some (st, en, _) =>
          (st, en) :: reFindIterAux r s fuel (if st < en then en else en + 1)

/-- Spans `(start, end)` of all matches of `r` in `s`, like
`[ (m.start(), m.end()) for m in r.finditer(s) ]`. -/
def reFindIter (r : RE) (s : List Char) : List (Nat × Nat) :=
  reFindIterAux r s (s.length + 2) 0

/-- Text captured by group `n` of a match (empty if the group is absent). -/
def groupTxt (s : List Char) (g : Groups) (n : Nat) : List Char :=
  match g.find? (fun t => t.1 = n) with
  | some (_, st, en) => (s.take en).drop st
  | none => []

/-! ### Pattern combinators mirroring the regex notation -/

/-- Concatenation of a list of regex pieces. -/
def cat (l : List RE) : RE := l.foldr RE.seq .eps

/-- Greedy `a+`. -/
def rplus (a : RE) : RE := .seq a (.star a false)

/-- Greedy `a?`. -/
def ropt (a : RE) : RE := .alt a .eps

/-- Case-insensitive literal character (`c` is given in lowercase);
models a literal under `re.IGNORECASE`. -/
def ichr (c : Char) : RE := .cls (fun ch => ch.toLower = c)

/-- Case-sensitive literal string. -/
def strR (l : List Char) : RE := cat (l.map RE.chr)

/-- Case-insensitive literal string (given in lowercase). -/
def istrR (l : List Char) : RE := cat (l.map ichr)

/-- The class `\d` (the inputs below are ASCII, where `\d` is `[0-9]`). -/
def dC : RE := .cls Char.isDigit

/-- Python whitespace class `\s` (ASCII part). -/
def isSpacePy (c : Char) : Bool :=
  c = ' ' ∨ c = '\t' ∨ c = '\n' ∨ c = Char.ofNat 11 ∨ c = Char.ofNat 12 ∨ c = '\r'

/-- The class `\s`. -/
def sC : RE := .cls isSpacePy

/-- The class `.` (any character but a newline). -/
def dotC : RE := .cls (fun c => c ≠ '\n')

/-- Greedy `\d+`. -/
def digits1 : RE := rplus dC

/-- The class `[^\]]`. -/
def notRB : RE := .cls (fun c => c ≠ ']')

/-- Greedy `a{1,2}`. -/
def rep12 (a : RE) : RE := .seq a (ropt a)

/-- Greedy `a{1,3}`. -/
def rep13 (a : RE) : RE := .seq a (ropt (.seq a (ropt a)))

/-- Lazy `a+?`. -/
def lazyPlus (a : RE) : RE := .seq a (.star a true)

/-! ### The pattern tables of src/modules/constants.py -/

/-- `IGNORE_PATTERNS[0]`: `\[[^\]]*\d+x\d+[^\]]*\]`. -/
def IG0 : RE :=
  cat [.chr '[', .star notRB false, digits1, .chr 'x', digits1,
       .star notRB false, .chr ']']

/-- `IGNORE_PATTERNS[1]`: `\[[^\]]*\d+p[^\]]*\]`. -/
def IG1 : RE :=
  cat [.chr '[', .star notRB false, digits1, .chr 'p',
       .star notRB false, .chr ']']

/-- `IGNORE_PATTERNS[2]`: `\[[^\]]*(?:DVDRip|BDRip|WebRip)[^\]]*\]`,
with `re.IGNORECASE`. -/
def IG2 : RE :=
  cat [.chr '[', .star notRB false,
       .alt (istrR "dvdrip".toList) (.alt (istrR "bdrip".toList) (istrR "webrip".toList)),
       .star notRB false, .chr ']']

/-- `IGNORE_PATTERNS[3]`: `\[[^\]]*(?:x26[45]|hevc|avc|flac|ac3|mp3)[^\]]*\]`,
with `re.IGNORECASE`. -/
def IG3 : RE :=
  cat [.chr '[', .star notRB false,
       .alt (cat [ichr 'x', ichr '2', ichr '6', .cls (fun c => c = '4' ∨ c = '5')])
         (.alt (istrR "hevc".toList)
           (.alt (istrR "avc".toList)
             (.alt (istrR "flac".toList)
               (.alt (istrR "ac3".toList) (istrR "mp3".toList))))),
       .star notRB false, .chr ']']

/-- The ordered table `IGNORE_PATTERNS`. -/
def IGNORE_PATTERNS : List RE := [IG0, IG1, IG2, IG3]

/-- `EPISODE_PATTERNS[0]`: `S(\d+)E(\d+)` with `re.IGNORECASE`. -/
def EP0 : RE := cat [ichr 's', .group 1 digits1, ichr 'e', .group 2 digits1]

/-- `EPISODE_PATTERNS[1]`: `(\d+)x(\d+)` with `re.IGNORECASE`. -/
def EP1 : RE := cat [.group 1 digits1, ichr 'x', .group 2 digits1]

/-- `EPISODE_PATTERNS[2]`: ` - (\d{1,2})(?:\s|$|\[)` with `re.IGNORECASE`. -/
def EP2 : RE :=
  cat [.chr ' ', .chr '-', .chr ' ', .group 1 (rep12 dC),
       .alt sC (.alt .eos (.chr '['))]

/-- `EPISODE_PATTERNS[3]`: `\[(\d{1,3})(?!\d)(?!p)(?!x\d)(?!bit)(?!-bit)\]`
(no ignore-case flag). -/
def EP3 : RE :=
  cat [.chr '[', .group 1 (rep13 dC),
       .nla dC, .nla (.chr 'p'), .nla (cat [.chr 'x', dC]),
       .nla (strR "bit".toList), .nla (strR "-bit".toList), .chr ']']

/-- `EPISODE_PATTERNS[4]`: `(?<![0-9])E?(\d{1,3})(?![0-9xp])` with
`re.IGNORECASE` (so the trailing class also excludes `X` and `P`). -/
def EP4 : RE :=
  cat [.nlb Char.isDigit, ropt (ichr 'e'), .group 1 (rep13 dC),
       .nla (.cls (fun c => c.isDigit ∨ c.toLower = 'x' ∨ c.toLower = 'p'))]

/-- The ordered table `EPISODE_PATTERNS`. -/
def EPISODE_PATTERNS : List RE := [EP0, EP1, EP2, EP3, EP4]

/-- `SHOW_NAME_RE`:
`(?:\[.+?\]\s*)*(.+?)(?:\s+-\s+|\s+S\d+E\d+|\s+\d+x\d+|\s+E\d+|\s+\[\d{1,3}\]|\s+\[\d{4}\])`
(no ignore-case flag). -/
def SHOW_NAME_RE : RE :=
  cat [.star (cat [.chr '[', lazyPlus dotC, .chr ']', .star sC false]) false,
       .group 1 (lazyPlus dotC),
       .alt (cat [rplus sC, .chr '-', rplus sC])
         (.alt (cat [rplus sC, .chr 'S', digits1, .chr 'E', digits1])
           (.alt (cat [rplus sC, digits1, .chr 'x', digits1])
             (.alt (cat [rplus sC, .chr 'E', digits1])
               (.alt (cat [rplus sC, .chr '[', rep13 dC, .chr ']'])
                 (cat [rplus sC, .chr '[', dC, dC, dC, dC, .chr ']'])))))]

/-! ### src/modules/parsers.py -/

/-- Value of a digit string, as `int()` computes it. -/
def digitsToNat (l : List Char) : Nat :=
  l.foldl (fun n c => 10 * n + (c.toNat - 48)) 0

/-- Numeric value of capture group `n` of a match. -/
def groupNat (s : List Char) (g : Groups) (n : Nat) : Nat :=
  digitsToNat (groupTxt s g n)

/-- Stage `EPISODE_PATTERNS[4]` of `extract_episode_info`, and the final
`return (None, None)`. -/
def extractEpisodeTail4 (s : List Char) (inSkip : Nat → Bool) :
    Option Nat × Option Nat :=
  match reSearch EP4 s with
  | some (st, _, g) =>
      if inSkip st then (none, none) else (none, some (groupNat s g 1))
  | none => (none, none)

/-- Stage `EPISODE_PATTERNS[3]` of `extract_episode_info` (index 2 of the
table is skipped by the source). -/
def extractEpisodeTail3 (s : List Char) (inSkip : Nat → Bool) :
    Option Nat × Option Nat :=
  match reSearch EP3 s with
  | some (st, _, g) =>
      if inSkip st then extractEpisodeTail4 s inSkip
      else (none, some (groupNat s g 1))
  | none => extractEpisodeTail4 s inSkip

/-- Stage `EPISODE_PATTERNS[1]` of the `EPISODE_PATTERNS[:2]` loop of
`extract_episode_info`. -/
def extractEpisodeTail1 (s : List Char) (inSkip : Nat → Bool) :
    Option Nat × Option Nat :=
  match reSearch EP1 s with
  | some (st, _, g) =>
      if inSkip st then extractEpisodeTail3 s inSkip
      else (some (groupNat s g 1), some (groupNat s g 2))
  | none => extractEpisodeTail3 s inSkip

/-- `extract_episode_info(filename)` from src/modules/parsers.py.
Note that the Python loop over `IGNORE_PATTERNS` rebinds `skip_ranges = []`
on every iteration before appending that pattern's spans, so after the
loop `skip_ranges` holds only the spans of the *last* ignore pattern;
the `foldl` below reproduces that rebinding exactly.  A match of an
episode pattern whose start lies in a skip range does not return, and
control falls to the next pattern stage, exactly as in the source. -/
def extract_episode_info (filename : String) : Option Nat × Option Nat :=
  let s := filename.toList
  let skip_ranges : List (Nat × Nat) :=
    IGNORE_PATTERNS.foldl (fun _ p => reFindIter p s) []
  let inSkip : Nat → Bool := fun st =>
    skip_ranges.any (fun r => r.1 ≤ st ∧ st ≤ r.2)
  match reSearch EP0 s with
  | some (st, _, g) =>
      if inSkip st then extractEpisodeTail1 s inSkip
      else (some (groupNat s g 1), some (groupNat s g 2))
  | none => extractEpisodeTail1 s inSkip

/-! ### Helper regexes and string helpers used by extract_show_name -/

/-- The inline pattern `\[\d{1,3}\]` of src/modules/parsers.py (used both
for `re.split` and for the first `re.sub`). -/
def SPLIT3_RE : RE := cat [.chr '[', rep13 dC, .chr ']']

/-- The inline pattern `^\s*\[.*?\]\s*(.*?)$` (matched with `re.match`,
so anchored at position 0). -/
def RELEASE_RE : RE :=
  cat [.star sC false, .chr '[', .star dotC true, .chr ']', .star sC false,
       .group 1 (.star dotC true), .eos]

/-- The inline pattern `\[[^\]]*(?:bit|p|x\d+|HEVC|h26[45]|flac|aac)[^\]]*\]`
with `re.IGNORECASE`. -/
def TECH_RE : RE :=
  cat [.chr '[', .star notRB false,
       .alt (istrR "bit".toList)
         (.alt (ichr 'p')
           (.alt (cat [ichr 'x', digits1])
             (.alt (istrR "hevc".toList)
               (.alt (cat [ichr 'h', .chr '2', .chr '6', .cls (fun c => c = '4' ∨ c = '5')])
                 (.alt (istrR "flac".toList) (istrR "aac".toList)))))),
       .star notRB false, .chr ']']

/-- Python `str.strip()` (ASCII whitespace). -/
def pyStrip (l : List Char) : List Char :=
  ((l.dropWhile isSpacePy).reverse.dropWhile isSpacePy).reverse

/-- `re.sub(r, "", s)`: drop every character lying inside a match span. -/
def removeSpans (s : List Char) (spans : List (Nat × Nat)) : List Char :=
  (List.range s.length).filterMap fun i =>
    if spans.any (fun r => r.1 ≤ i ∧ i < r.2) then none else some (charAt s i)

/-- `re.split(r, s, 1)`: the parts before and after the first match, or
`none` when there is no match (Python then returns the one-element list). -/
def reSplit1 (r : RE) (s : List Char) : Option (List Char × List Char) :=
  match reSearch r s with
  | some (st, en, _) => some (s.take st, s.drop en)
  | none => none

/-- `str.rfind(c)`: index of the last occurrence, `-1` when absent. -/
def pyRFind (l : List Char) (c : Char) : Int :=
  match List.findIdx? (fun x => x = c) l.reverse with
  | some j => ((l.length - 1 - j : Nat) : Int)
  | none => -1

/-- `pathlib.PurePath.stem` of a file name: the name without its last
suffix; the suffix exists only when the last dot is at an index `i` with
`0 < i < len(name) - 1`. -/
def pyStem (name : String) : String :=
  let l := name.toList
  let i := pyRFind l '.'
  if 0 < i ∧ i < (l.length : Int) - 1 then String.mk (l.take i.toNat)
  else name

/-- `pathlib.PurePath.suffix` of a file name. -/
def pySuffix (name : String) : String :=
  let l := name.toList
  let i := pyRFind l '.'
  if 0 < i ∧ i < (l.length : Int) - 1 then String.mk (l.drop i.toNat)
  else ""

/-- `str.lower()` (the strings below are ASCII, where `Char.toLower`
agrees with Python). -/
def pyLower (s : String) : String := String.mk (s.toList.map Char.toLower)

/-- `str.startswith(p)`. -/
def pyStartsWith (s p : String) : Bool := p.toList.isPrefixOf s.toList

/-- `extract_show_name(filename)` from src/modules/parsers.py.  The first
loop of the source keeps the match of the first pattern in
`EPISODE_PATTERNS` that matches and compares its `.re` against
`EPISODE_PATTERNS[3]`; that identity test holds exactly when the first
matching pattern is the one at table index 3, which is what `epIdx`
computes. -/
def extract_show_name (filename : String) : String :=
  let s := filename.toList
  let epIdx := EPISODE_PATTERNS.findIdx? (fun p => (reSearch p s).isSome)
  let viaBracket : Option (List Char) :=
    if epIdx = some 3 then
      match reSplit1 SPLIT3_RE s with
      | some (before, _) =>
          match reMatchAt RELEASE_RE before 0 with
          | some (_, g) => some (pyStrip (groupTxt before g 1))
          | none => some (pyStrip before)
      | none => none
    else none
  match viaBracket with
  | some r => String.mk r
  | none =>
    match reSearch SHOW_NAME_RE s with
    | some (_, _, g) => String.mk (pyStrip (groupTxt s g 1))
    | none =>
      let c1 := removeSpans s (reFindIter SPLIT3_RE s)
      let c2 := removeSpans c1 (reFindIter TECH_RE c1)
      let c3 :=
        match c2 with
        | '[' :: _ =>
            match List.findIdx? (fun c => c = ']') c2 with
            | some rb => if rb > 0 then pyStrip (c2.drop (rb + 1)) else c2
            | none => c2
        | _ => c2
      String.mk (pyStrip c3)

/-! ### Exact rational arithmetic primitives

Python `float` arithmetic is modelled by exact rationals.  The Mathlib
field operations on `ℚ` are `@[irreducible]`, which keeps the kernel
from evaluating them on concrete inputs, so the embedded code uses the
following equivalent primitives built on `Rat.divInt` and `mkRat`
(which do evaluate); the `_eq` bridge lemmas below identify them with
the Mathlib operations for use in the general theorems. -/

/-- Exact rational multiplication. -/
def qMul (a b : ℚ) : ℚ := Rat.divInt (a.num * b.num) ((a.den : ℤ) * (b.den : ℤ))

/-- Exact rational division (`0` when `b = 0`, like Mathlib's `/`;
the embedded code never divides by zero on the paths where this is
used). -/
def qDiv (a b : ℚ) : ℚ := Rat.divInt (a.num * (b.den : ℤ)) ((a.den : ℤ) * b.num)

/-- Exact rational addition. -/
def qAdd (a b : ℚ) : ℚ :=
  Rat.divInt (a.num * (b.den : ℤ) + b.num * (a.den : ℤ)) ((a.den : ℤ) * (b.den : ℤ))

/-- Exact rational subtraction. -/
def qSub (a b : ℚ) : ℚ :=
  Rat.divInt (a.num * (b.den : ℤ) - b.num * (a.den : ℤ)) ((a.den : ℤ) * (b.den : ℤ))

/-- Floor of a rational (the denominator is positive and `Int` `/` is
euclidean division, which is the floor for a positive divisor). -/
def qFloor (q : ℚ) : ℤ := q.num / (q.den : ℤ)

/-- Python `min(a, b)` (returns the first argument on ties; the value is
the same either way). -/
def qMin (a b : ℚ) : ℚ := if a < b then a else b

/-- The decimal literal `n/d` of the Python source, as an exact
rational. -/
def rq (n : ℤ) (d : ℕ) : ℚ := mkRat n d

/-- The rational denominator is nonzero. -/
theorem denQ_ne (a : ℚ) : ((a.den : ℚ)) ≠ 0 := by
  exact_mod_cast a.den_nz

/-- A rational's numerator equals the rational times its denominator. -/
theorem num_eq (a : ℚ) : (a.num : ℚ) = a * (a.den : ℚ) :=
  (div_eq_iff (denQ_ne a)).mp (Rat.num_div_den a)

/-- `qMul` is Mathlib's multiplication. -/
theorem qMul_eq (a b : ℚ) : qMul a b = a * b := by
  rw [qMul, Rat.divInt_eq_div]
  push_cast
  rw [mul_div_mul_comm, Rat.num_div_den, Rat.num_div_den]

/-- `qAdd` is Mathlib's addition. -/
theorem qAdd_eq (a b : ℚ) : qAdd a b = a + b := by
  rw [qAdd, Rat.divInt_eq_div]
  push_cast
  rw [div_eq_iff (mul_ne_zero (denQ_ne a) (denQ_ne b)), num_eq a, num_eq b]
  ring

/-- `qSub` is Mathlib's subtraction. -/
theorem qSub_eq (a b : ℚ) : qSub a b = a - b := by
  rw [qSub, Rat.divInt_eq_div]
  push_cast
  rw [div_eq_iff (mul_ne_zero (denQ_ne a) (denQ_ne b)), num_eq a, num_eq b]
  ring

/-- `qDiv` is Mathlib's division. -/
theorem qDiv_eq (a b : ℚ) : qDiv a b = a / b := by
  rcases eq_or_ne b 0 with hb | hb
  · subst hb
    simp [qDiv, Rat.divInt_eq_div]
  · have hbn : ((b.num : ℚ)) ≠ 0 := by
      exact_mod_cast Rat.num_ne_zero.mpr hb
    rw [qDiv, Rat.divInt_eq_div]
    push_cast
    rw [div_eq_div_iff (mul_ne_zero (denQ_ne a) hbn) hb, num_eq a, num_eq b]
    ring

/-- `qFloor` is Mathlib's floor. -/
theorem qFloor_eq (q : ℚ) : qFloor q = ⌊q⌋ := (Rat.floor_def).symm

/-- `qMin` is Mathlib's `min`. -/
theorem qMin_eq (a b : ℚ) : qMin a b = min a b := by
  rw [qMin, min_def]
  rcases lt_trichotomy a b with h | h | h
  · rw [if_pos h, if_pos h.le]
  · subst h
    simp
  · rw [if_neg (not_lt_of_gt h), if_neg (not_le_of_gt h)]

/-- `rq` is the plain fraction. -/
theorem rq_eq (n : ℤ) (d : ℕ) : rq n d = (n : ℚ) / (d : ℚ) := by
  rw [rq, Rat.mkRat_eq_divInt, Rat.divInt_eq_div]
  norm_cast

/-! ### src/modules/matcher.py: the similarity scorer

`Matcher._string_similarity` normalizes both inputs with
`re.sub(r'[^a-zA-Z0-9]', '', s.lower())` and then calls
`thefuzz.fuzz.token_sort_ratio` on the normalized strings.  `thefuzz`
delegates to `rapidfuzz`: each string is whitespace-split, the tokens are
sorted and re-joined with single spaces, and the joined strings are
compared with the normalized InDel similarity
`100 * (1 - (len1 + len2 - 2*LCS) / (len1 + len2))`, i.e.
`200 * LCS / (len1 + len2)`; `thefuzz` then applies `int(round(...))`
(Python's round-half-to-even).  Since the inputs are already lowercase
alphanumeric, the `full_process` preprocessing inside `thefuzz` is the
identity on them. -/

/-- Normalization `re.sub(r'[^a-zA-Z0-9]', '', s.lower())`. -/
def pyNormalize (s : String) : String :=
  String.mk ((s.toList.map Char.toLower).filter Char.isAlphanum)

/-- `str.split()` (split on whitespace runs, dropping empties): the
accumulator carries the current token reversed. -/
def splitWsAux : List Char → List Char → List (List Char)
  | [], cur => if cur = [] then [] else [cur.reverse]
  | c :: cs, cur =>
      if isSpacePy c then
        if cur = [] then splitWsAux cs [] else cur.reverse :: splitWsAux cs []
      else splitWsAux cs (c :: cur)

/-- `str.split()`. -/
def pySplitWs (l : List Char) : List (List Char) := splitWsAux l []

/-- Lexicographic `≤` on strings by code point, as Python compares them. -/
def strLeb : List Char → List Char → Bool
  | [], _ => true
  | _ :: _, [] => false
  | a :: as, b :: bs => if a = b then strLeb as bs else decide (a < b)

/-- Stable insertion into a sorted token list. -/
def insertTok (x : List Char) : List (List Char) → List (List Char)
  | [] => [x]
  | y :: ys => if strLeb x y then x :: y :: ys else y :: insertTok x ys

/-- `sorted(tokens)` (stable, ascending). -/
def sortToks (l : List (List Char)) : List (List Char) := l.foldr insertTok []

/-- `" ".join(tokens)`. -/
def joinWs : List (List Char) → List Char
  | [] => []
  | [t] => t
  | t :: ts => t ++ ' ' :: joinWs ts

/-- Longest common subsequence length, fuel-bounded so that it is
structurally recursive; `l1.length + l2.length` fuel always suffices. -/
def lcsF : Nat → List Char → List Char → Nat
  | 0, _, _ => 0
  | _ + 1, [], _ => 0
  | _ + 1, _ :: _, [] => 0
  | fuel + 1, a :: as, b :: bs =>
      if a = b then lcsF fuel as bs + 1
      else max (lcsF fuel (a :: as) bs) (lcsF fuel as (b :: bs))

/-- Longest common subsequence length of two strings. -/
def lcs (l1 l2 : List Char) : Nat := lcsF (l1.length + l2.length) l1 l2

/-- Python `round()` on an exact rational: round half to even (`qFloor q`
is the integer part `f` and `qSub q f` the fractional remainder `r`;
the branches are `r < 1/2`, `r > 1/2`, and the tie broken to the even
neighbour). -/
def roundHalfEven (q : ℚ) : ℤ :=
  if qSub q ((qFloor q : ℤ) : ℚ) < rq 1 2 then qFloor q
  else if rq 1 2 < qSub q ((qFloor q : ℤ) : ℚ) then qFloor q + 1
  else if qFloor q % 2 = 0 then qFloor q else qFloor q + 1

/-- `rapidfuzz.fuzz.ratio`: normalized InDel similarity in percent
(`100.0` when both strings are empty). -/
def indelPct (l1 l2 : List Char) : ℚ :=
  if l1.length + l2.length = 0 then 100
  else mkRat (200 * (lcs l1 l2 : ℤ)) (l1.length + l2.length)

/-- `int(round(thefuzz.fuzz.token_sort_ratio(s1, s2)))` on already
processed (lowercase alphanumeric-and-space) strings. -/
def tokenSortPct (s1 s2 : List Char) : ℤ :=
  roundHalfEven
    (indelPct (joinWs (sortToks (pySplitWs s1))) (joinWs (sortToks (pySplitWs s2))))

/-- `Matcher._string_similarity(str1, str2)` from src/modules/matcher.py. -/
def string_similarity (str1 str2 : String) : ℚ :=
  let norm1 := pyNormalize str1
  let norm2 := pyNormalize str2
  if norm1 = "" ∨ norm2 = "" then 0
  else mkRat (tokenSortPct norm1.toList norm2.toList) 100

/-! ### src/modules/matcher.py: the match engine -/

/-- A filesystem path, reduced to the attributes the embedded code reads:
its parent directory and its final name component. -/
structure FPath where
  parent : String
  name : String
deriving DecidableEq

/-- `Path.stem` of a path. -/
def FPath.stem (p : FPath) : String := pyStem p.name

/-- `MatchResult` from src/modules/matcher.py (`match_type` is the
`str` field holding one of `exact`, `episode`, `fuzzy`, `manual`, `none`). -/
structure MatchResult where
  video_path : FPath
  subtitle_path : Option FPath
  confidence : ℚ
  match_type : String
  reason : String
deriving DecidableEq

/-- Python `f"{n:02d}"` for a natural number. -/
def pad2 (n : Nat) : String := if n < 10 then "0" ++ toString n else toString n

/-- Python `f"{q:.0%}"` for a similarity score: the percentage rounded
half-to-even (every score reaching this formatter is an integer number of
percent, so the rounding is exact). -/
def pctFmt (q : ℚ) : String := toString (roundHalfEven (qMul q 100))

/-- The show-name bonus step of `Matcher._score_match` (lines 147-156):
boost the episode score when the show names are similar, then clamp at
`0.95` and return with kind `episode`. -/
def episodeBonus (video_show sub_show : String) (base : ℚ) (reason : String) :
    ℚ × String × String :=
  let br :=
    if video_show ≠ "" ∧ sub_show ≠ "" then
      let show_similarity := string_similarity video_show sub_show
      if show_similarity > rq 8 10 then
        (qAdd base (rq 15 100), reason ++ " with similar show name")
      else if show_similarity > rq 5 10 then (qAdd base (rq 5 100), reason)
      else (base, reason)
    else (base, reason)
  (qMin br.1 (rq 95 100), "episode", br.2)

/-- Steps 4 and 5 of `Matcher._score_match`: fuzzy show-name matching
(only when the video has no episode number) and the no-match fallback. -/
def scoreFuzzy (video_episode : Option Nat) (video_show sub_show : String) :
    ℚ × String × String :=
  if video_show ≠ "" ∧ sub_show ≠ "" ∧ video_episode = none then
    let similarity := string_similarity video_show sub_show
    if similarity > rq 9 10 then
      (rq 7 10, "fuzzy",
       "High show name similarity (" ++ pctFmt similarity ++ "%)")
    else if similarity > rq 7 10 then
      (rq 5 10, "fuzzy",
       "Moderate show name similarity (" ++ pctFmt similarity ++ "%)")
    else (0, "none", "No matching criteria")
  else (0, "none", "No matching criteria")

/-- `Matcher._score_match(video_path, sub_path, video_season,
video_episode, video_show)` from src/modules/matcher.py. -/
def score_match (video_path sub_path : FPath)
    (video_season video_episode : Option Nat) (video_show : String) :
    ℚ × String × String :=
  let se := extract_episode_info (FPath.stem sub_path)
  let sub_season := se.1
  let sub_episode := se.2
  let sub_show := extract_show_name (FPath.stem sub_path)
  if FPath.stem video_path = FPath.stem sub_path then
    (1, "exact", "Exact filename match")
  else if pyStartsWith (FPath.stem sub_path) (FPath.stem video_path ++ ".") then
    (rq 99 100, "exact", "Exact match with language code")
  else
    match video_episode, sub_episode with
    | some ve, some sepi =>
        if ve = sepi then
          match video_season, sub_season with
          | some vs, some ss =>
              if vs = ss then
                episodeBonus video_show sub_show (rq 8 10)
                  ("Episode S" ++ pad2 vs ++ "E" ++ pad2 ve ++ " match")
              else
                (rq 2 10, "episode",
                 "Episode match but different season (S" ++ toString vs ++
                   " vs S" ++ toString ss ++ ")")
          | _, _ =>
              episodeBonus video_show sub_show (rq 6 10)
                ("Episode E" ++ pad2 ve ++ " match (no season info)")
        else scoreFuzzy video_episode video_show sub_show
    | _, _ => scoreFuzzy video_episode video_show sub_show

/-- The candidate loop of `Matcher.match_single` (lines 73-90): the
running best `(best_match, best_score, best_type, best_reason)`, starting
from `(None, 0.0, "none", "")` and updated only on a strictly greater
score. -/
def best_of (video_path : FPath) (subtitle_candidates : List FPath) :
    Option FPath × ℚ × String × String :=
  let ei := extract_episode_info (FPath.stem video_path)
  let video_show := extract_show_name (FPath.stem video_path)
  subtitle_candidates.foldl
    (fun acc sub_path =>
      let sc := score_match video_path sub_path ei.1 ei.2 video_show
      if sc.1 > acc.2.1 then (some sub_path, sc.1, sc.2.1, sc.2.2) else acc)
    (none, 0, "none", "")

/-- `Matcher.match_single(video_path, subtitle_candidates, strict)` from
src/modules/matcher.py. -/
def match_single (video_path : FPath) (subtitle_candidates : List FPath)
    (strict : Bool) : MatchResult :=
  if subtitle_candidates = [] then
    ⟨video_path, none, 0, "none", "No subtitle files found"⟩
  else
    let b := best_of video_path subtitle_candidates
    if strict ∧ b.2.1 < rq 9 10 then
      ⟨video_path, none, b.2.1, "none",
       "Best match below strict threshold: " ++ b.2.2.2⟩
    else ⟨video_path, b.1, b.2.1, b.2.2.1, b.2.2.2⟩

/-! ### src/modules/subtitles.py: the two transforms

The transforms perform file I/O.  The embedding makes the fallible
steps explicit parameters:

* `parseAss` / `parseSrt` — the outcome of opening and parsing the input
  file (`ass.parse` for the ASS branch, reading the text for the SRT
  branch); `.error ()` means that step raised.
* `uid` — the fresh `str(uuid.uuid4())[:8]` token used in the output
  file name.
* `write` — the outcome of opening the output file and writing the
  transformed document: it succeeds, or raises after the partial file
  was created, or raises before any file existed.

Each transform returns the path the Python function returns together
with the list of files it created in the temporary directory that still
exist when it returns (with their content when completely written).
An empty list means the call wrote nothing at all; the input file is
only ever opened for reading, so it is never modified.

`ass` documents are reduced to the fields the transforms read: the
`Timer` script-info field, the `PlayResX`/`PlayResY` script-info fields,
the style table and the event list.  Event timestamps are held directly
in integer milliseconds (the value `ass_timestamp_to_ms` computes from
the parsed timestamp); style numeric fields are held as exact rationals
(the source stores them as strings and converts with `float`/`int`;
conversion failures are part of the `parseAss`/`write` failure
outcomes).  The event-text override-tag rewriting of the resampler is
not modelled: no claim mentions it. -/

/-- One ASS event, by its timestamps in milliseconds (`stop` is the
`end` field, renamed because `end` is a Lean keyword). -/
structure AssEvent where
  start : ℤ
  stop : ℤ
deriving DecidableEq

/-- One ASS style, by the numeric fields the resampler rewrites.
`spacing = none` models a style object without the attribute (the source
guards this field with `hasattr`). -/
structure AssStyle where
  fontsize : ℚ
  marginl : ℚ
  marginr : ℚ
  marginv : ℚ
  outline : ℚ
  shadow : ℚ
  spacing : Option ℚ
deriving DecidableEq

/-- An ASS document, by the parts the transforms read.  `timer` models
`doc.info.Timer`: `none` when the attribute is missing or falsy (empty),
`some none` when present but not parseable as a float, `some (some t)`
when `float(...)` yields `t`.  `playResX`/`playResY` model
`int(getattr(script_info, 'PlayResX', 0) or 0)`: `0` when missing or
empty. -/
structure AssDoc where
  timer : Option (Option ℚ)
  playResX : ℕ
  playResY : ℕ
  styles : List AssStyle
  events : List AssEvent
deriving DecidableEq

/-- Content of a completely written output file. -/
inductive SubContent where
  | assC (doc : AssDoc)
  | srtC (cues : List (ℕ × ℕ))
deriving DecidableEq

/-- Result of a transform call: the returned path and the files created
in the temp directory that still exist on return (`none` content for a
partially written file). -/
structure TransformResult where
  ret : FPath
  files : List (FPath × Option SubContent)
deriving DecidableEq

/-- Outcome of writing the output file. -/
inductive WriteOutcome where
  | ok
  | failPartial
  | failClean
deriving DecidableEq

/-- `TEMP_DIR` from src/modules/constants.py. -/
def TEMP_DIR : String := "temp_mux"

/-- Python `int()` on an exact rational: truncation toward zero
(`Int.tdiv` truncates toward zero; the denominator is positive). -/
def pyIntTrunc (q : ℚ) : ℤ := Int.tdiv q.num (q.den : ℤ)

/-- The fps resolution of the ASS branch of `shift_subtitle_timing`
(lines 208-213): `23.976` unless the `Timer` field is present, truthy
and float-parseable. -/
def shiftFps (doc : AssDoc) : ℚ :=
  match doc.timer with
  | some (some t) => t
  | _ => rq 23976 1000

/-- The per-event arithmetic of `shift_subtitle_timing` (lines 218-231
and 254-266): add the shift to each boundary, then clamp each at zero
independently. -/
def shiftEvent (shift_ms : ℤ) (e : AssEvent) : AssEvent :=
  ⟨if e.start + shift_ms < 0 then 0 else e.start + shift_ms,
   if e.stop + shift_ms < 0 then 0 else e.stop + shift_ms⟩

/-- The SRT cue arithmetic of `shift_subtitle_timing` (the
`replace_timestamp` callback): same shift-then-clamp on both boundaries;
the cue times extracted by the timestamp regex are naturals. -/
def srtShiftCue (shift_ms : ℤ) (c : ℕ × ℕ) : ℕ × ℕ :=
  ((if (c.1 : ℤ) + shift_ms < 0 then 0 else (c.1 : ℤ) + shift_ms).toNat,
   (if (c.2 : ℤ) + shift_ms < 0 then 0 else (c.2 : ℤ) + shift_ms).toNat)

/-- The output path `temp_mux / f"{stem}_shifted_{uid}{suffix}"`. -/
def shiftedPath (sub_path : FPath) (uid : String) : FPath :=
  ⟨TEMP_DIR, pyStem sub_path.name ++ "_shifted_" ++ uid ++ pySuffix sub_path.name⟩

/-- `shift_subtitle_timing(sub_path, frames)` from src/modules/subtitles.py.
`fps = 0` (a `Timer` of `"0"`) makes `1000 / fps` raise
`ZeroDivisionError` inside the `try`, which the `except` turns into
returning the original path; the explicit `fps = 0` test below models
exactly that.  On a write failure the ASS/SRT branches return the
original path but do not delete a partially created output file. -/
def shift_subtitle_timing (sub_path : FPath) (frames : ℤ) (uid : String)
    (parseAss : Except Unit AssDoc) (parseSrt : Except Unit (List (ℕ × ℕ)))
    (write : WriteOutcome) : TransformResult :=
  if frames = 0 then ⟨sub_path, []⟩
  else
    let out := shiftedPath sub_path uid
    if pyLower (pySuffix sub_path.name) ∈ [".ass", ".ssa"] then
      match parseAss with
      | .error _ => ⟨sub_path, []⟩
      | .ok doc =>
          let fps := shiftFps doc
          if fps = 0 then ⟨sub_path, []⟩
          else
            let shift_ms := pyIntTrunc (qMul (frames : ℚ) (qDiv 1000 fps))
            let doc2 := { doc with events := doc.events.map (shiftEvent shift_ms) }
            match write with
            | .ok => ⟨out, [(out, some (.assC doc2))]⟩
            | .failPartial => ⟨sub_path, [(out, none)]⟩
            | .failClean => ⟨sub_path, []⟩
    else if pyLower (pySuffix sub_path.name) = ".srt" then
      match parseSrt with
      | .error _ => ⟨sub_path, []⟩
      | .ok cues =>
          let shift_ms := pyIntTrunc (qMul (frames : ℚ) (qDiv 1000 (rq 23976 1000)))
          let cues2 := cues.map (srtShiftCue shift_ms)
          match write with
          | .ok => ⟨out, [(out, some (.srtC cues2))]⟩
          | .failPartial => ⟨sub_path, [(out, none)]⟩
          | .failClean => ⟨sub_path, []⟩
    else ⟨sub_path, []⟩

/-- The per-style arithmetic of `resample_ass_subtitle` (lines 339-350):
font size, outline and shadow scale by `scale_y`; the margins scale by
the axis factor and are truncated with `int(...)`; spacing scales by
`scale_x` when the attribute exists. -/
def resampleStyle (scale_x scale_y : ℚ) (st : AssStyle) : AssStyle where
  fontsize := qMul st.fontsize scale_y
  marginl := (pyIntTrunc (qMul st.marginl scale_x) : ℚ)
  marginr := (pyIntTrunc (qMul st.marginr scale_x) : ℚ)
  marginv := (pyIntTrunc (qMul st.marginv scale_y) : ℚ)
  outline := qMul st.outline scale_y
  shadow := qMul st.shadow scale_y
  spacing := st.spacing.map (fun sp => qMul sp scale_x)

/-- The document rewrite performed by `resample_ass_subtitle` once it has
decided to resample: set `PlayResX`/`PlayResY` to the video resolution
and scale every style by the per-axis factors computed from the original
(defaulted) resolution. -/
def resampleDocTransform (video_width video_height : ℕ) (doc : AssDoc) : AssDoc :=
  let orig_width := if doc.playResX = 0 then 1280 else doc.playResX
  let orig_height := if doc.playResY = 0 then 720 else doc.playResY
  let scale_x := qDiv (video_width : ℚ) (orig_width : ℚ)
  let scale_y := qDiv (video_height : ℚ) (orig_height : ℚ)
  { doc with
      playResX := video_width
      playResY := video_height
      styles := doc.styles.map (resampleStyle scale_x scale_y) }

/-- The output path `temp_mux / f"{stem}_resampled_{uid}.ass"`. -/
def resampledPath (sub_path : FPath) (uid : String) : FPath :=
  ⟨TEMP_DIR, pyStem sub_path.name ++ "_resampled_" ++ uid ++ ".ass"⟩

/-- `resample_ass_subtitle(sub_path, video_path, force_resample,
no_resample)` from src/modules/subtitles.py.  `videoRes` is the pair
returned by `get_video_resolution(video_path)`.  On a failure after the
output path exists, the `except` handler deletes the partial file, so no
file survives any failing call. -/
def resample_ass_subtitle (sub_path : FPath) (uid : String)
    (videoRes : ℕ × ℕ) (force_resample no_resample : Bool)
    (parse : Except Unit AssDoc) (write : WriteOutcome) : TransformResult :=
  if pyLower (pySuffix sub_path.name) ≠ ".ass" ∨ no_resample then ⟨sub_path, []⟩
  else if videoRes.1 = 0 ∨ videoRes.2 = 0 then ⟨sub_path, []⟩
  else
    match parse with
    | .error _ => ⟨sub_path, []⟩
    | .ok doc =>
        let orig_width := if doc.playResX = 0 then 1280 else doc.playResX
        let orig_height := if doc.playResY = 0 then 720 else doc.playResY
        if ¬ force_resample ∧ orig_width = videoRes.1 ∧ orig_height = videoRes.2 then
          ⟨sub_path, []⟩
        else
          let out := resampledPath sub_path uid
          let doc2 := resampleDocTransform videoRes.1 videoRes.2 doc
          match write with
          | .ok => ⟨out, [(out, some (.assC doc2))]⟩
          | .failPartial => ⟨sub_path, []⟩
          | .failClean => ⟨sub_path, []⟩

/-! ### Support lemmas -/

/-- The LCS length is at most the length of the first string. -/
theorem lcsF_le_left : ∀ (fuel : Nat) (l1 l2 : List Char),
    lcsF fuel l1 l2 ≤ l1.length := by
  intro fuel
  induction fuel with
  | zero => intro l1 l2; simp [lcsF]
  | succ n ih =>
      intro l1 l2
      match l1, l2 with
      | [], _ => simp [lcsF]
      | _ :: _, [] => simp [lcsF]
      | a :: as, b :: bs =>
          by_cases hab : a = b
          · simp only [lcsF, if_pos hab, List.length_cons]
            exact Nat.succ_le_succ (ih as bs)
          · simp only [lcsF, if_neg hab, List.length_cons]
            refine max_le (ih (a :: as) bs) ?_
            exact le_trans (ih as (b :: bs)) (Nat.le_succ _)

/-- The LCS length is at most the length of the second string. -/
theorem lcsF_le_right : ∀ (fuel : Nat) (l1 l2 : List Char),
    lcsF fuel l1 l2 ≤ l2.length := by
  intro fuel
  induction fuel with
  | zero => intro l1 l2; simp [lcsF]
  | succ n ih =>
      intro l1 l2
      match l1, l2 with
      | [], _ => simp [lcsF]
      | _ :: _, [] => simp [lcsF]
      | a :: as, b :: bs =>
          by_cases hab : a = b
          · simp only [lcsF, if_pos hab, List.length_cons]
            exact Nat.succ_le_succ (ih as bs)
          · simp only [lcsF, if_neg hab, List.length_cons]
            refine max_le ?_ (ih as (b :: bs))
            exact le_trans (ih (a :: as) bs) (Nat.le_succ _)

/-- `mkRat` over natural casts, as a division of casts. -/
theorem mkRat_natCast_div (n : ℕ) (d : ℕ) : mkRat (n : ℤ) d = (n : ℚ) / (d : ℚ) := by
  rw [show mkRat (n : ℤ) d = rq (n : ℤ) d from rfl, rq_eq]
  push_cast
  ring

/-- The numerator cast rewrite used for `indelPct`. -/
theorem indelPct_cast (l1 l2 : List Char) (h : ¬ l1.length + l2.length = 0) :
    indelPct l1 l2 = ((200 * lcs l1 l2 : ℕ) : ℚ) / ((l1.length + l2.length : ℕ) : ℚ) := by
  rw [indelPct, if_neg h]
  rw [show ((200 * (lcs l1 l2 : ℤ)) : ℤ) = ((200 * lcs l1 l2 : ℕ) : ℤ) by push_cast; ring]
  rw [mkRat_natCast_div]

/-- The InDel percentage is nonnegative. -/
theorem indelPct_nonneg (l1 l2 : List Char) : 0 ≤ indelPct l1 l2 := by
  by_cases h : l1.length + l2.length = 0
  · rw [indelPct, if_pos h]
    norm_num
  · rw [indelPct_cast l1 l2 h]
    positivity

/-- The InDel percentage is at most 100. -/
theorem indelPct_le (l1 l2 : List Char) : indelPct l1 l2 ≤ 100 := by
  by_cases h : l1.length + l2.length = 0
  · rw [indelPct, if_pos h]
  · rw [indelPct_cast l1 l2 h]
    have hL : 200 * lcs l1 l2 ≤ 100 * (l1.length + l2.length) := by
      have h1 := lcsF_le_left (l1.length + l2.length) l1 l2
      have h2 := lcsF_le_right (l1.length + l2.length) l1 l2
      rw [lcs]
      omega
    have hpos : (0 : ℚ) < ((l1.length + l2.length : ℕ) : ℚ) := by
      have hp : 0 < l1.length + l2.length := Nat.pos_of_ne_zero h
      exact_mod_cast hp
    rw [div_le_iff₀ hpos]
    calc ((200 * lcs l1 l2 : ℕ) : ℚ) ≤ ((100 * (l1.length + l2.length) : ℕ) : ℚ) := by
          exact_mod_cast hL
      _ = 100 * ((l1.length + l2.length : ℕ) : ℚ) := by push_cast; ring

/-- Round-half-even of a nonnegative rational is nonnegative. -/
theorem roundHalfEven_nonneg (q : ℚ) (h : 0 ≤ q) : 0 ≤ roundHalfEven q := by
  rw [roundHalfEven]
  have hf : (0 : ℤ) ≤ qFloor q := by
    rw [qFloor_eq]
    exact Int.floor_nonneg.mpr h
  split
  · exact hf
  · split
    · omega
    · split <;> omega

/-- Round-half-even of a rational at most 100 is at most 100. -/
theorem roundHalfEven_le (q : ℚ) (h : q ≤ 100) : roundHalfEven q ≤ 100 := by
  rw [roundHalfEven]
  have hf : qFloor q ≤ 100 := by
    rw [qFloor_eq]
    calc ⌊q⌋ ≤ ⌊(100 : ℚ)⌋ := Int.floor_le_floor h
      _ = 100 := by norm_num
  split
  · exact hf
  · rename_i hnot
    have hr : rq 1 2 ≤ qSub q ((qFloor q : ℤ) : ℚ) := le_of_not_lt hnot
    have hflt : qFloor q ≤ 99 := by
      by_contra hcon
      have h100 : qFloor q = 100 := by omega
      rw [qSub_eq, rq_eq, h100] at hr
      push_cast at hr
      nlinarith
    split
    · omega
    · split <;> omega

/-! ### Claim C1 -/

/-- C1: the claim says `extract_episode_info` never returns season/episode
numbers taken from a pattern match inside an ignore range, and in
particular that a bracketed resolution tag such as `[960x720]` is never
returned as `(season = 960, episode = 720)`.  The code violates this:
because the loop over `IGNORE_PATTERNS` rebinds `skip_ranges` to `[]` on
every iteration, only the last (codec) pattern's ranges survive, and on
the input `"[960x720]"` the function returns `(some 960, some 720)` even
though the `(\d+)x(\d+)` match (starting at index 1) lies inside the span
`(0, 9)` of the bracketed-resolution ignore pattern. -/
theorem C1_ignored_range_returned :
    extract_episode_info "[960x720]" = (some 960, some 720) ∧
    reFindIter IG0 "[960x720]".toList = [(0, 9)] ∧
    (reSearch EP1 "[960x720]".toList).map (fun m => m.1) = some 1 ∧
    ((0 : Nat) ≤ 1 ∧ (1 : Nat) ≤ 9) := by decide

/-! ### Claim C3 -/

/-- C3 counterexample: the claim says `similarity` is token-order
insensitive (permuting whitespace-separated words leaves the score
unchanged).  It is not: normalization removes every non-alphanumeric
character, including the spaces, *before* `token_sort_ratio` runs, so the
token sorting never sees more than one token.  `"ab cd"` scores `1`
against itself, but its word permutation `"cd ab"` scores only `1/2`
against it. -/
theorem C3_counterexample :
    string_similarity "ab cd" "ab cd" = 1 ∧
    string_similarity "cd ab" "ab cd" = rq 1 2 ∧
    (1 : ℚ) ≠ rq 1 2 := by decide

/-- C3 (amended): `similarity(a, b)` always lies in `[0, 1]` and returns
`0` whenever either input normalizes (lowercased, every character that is
not ASCII-alphanumeric removed) to the empty string.  The
token-order-insensitivity part of the claim is dropped: normalization
strips whitespace before the token sort, so word order can change the
score (see the counterexample). -/
theorem C3_similarity_range (a b : String) :
    0 ≤ string_similarity a b ∧ string_similarity a b ≤ 1 ∧
    ((pyNormalize a = "" ∨ pyNormalize b = "") → string_similarity a b = 0) := by
  by_cases h : pyNormalize a = "" ∨ pyNormalize b = ""
  · rw [string_similarity]
    simp only [if_pos h]
    norm_num
  · rw [string_similarity]
    simp only [if_neg h]
    have h0 : 0 ≤ tokenSortPct (pyNormalize a).toList (pyNormalize b).toList := by
      rw [tokenSortPct]
      exact roundHalfEven_nonneg _ (indelPct_nonneg _ _)
    have h100 : tokenSortPct (pyNormalize a).toList (pyNormalize b).toList ≤ 100 := by
      rw [tokenSortPct]
      exact roundHalfEven_le _ (indelPct_le _ _)
    have hq : mkRat (tokenSortPct (pyNormalize a).toList (pyNormalize b).toList) 100
        = ((tokenSortPct (pyNormalize a).toList (pyNormalize b).toList : ℤ) : ℚ) / 100 := by
      rw [show mkRat (tokenSortPct (pyNormalize a).toList (pyNormalize b).toList) 100
            = rq (tokenSortPct (pyNormalize a).toList (pyNormalize b).toList) 100 from rfl,
          rq_eq]
      norm_num
    refine ⟨?_, ?_, fun hcon => absurd hcon h⟩
    · rw [hq]
      positivity
    · rw [hq, div_le_one (by norm_num)]
      exact_mod_cast h100

/-- C3 witness: the amended range theorem applied at concrete inputs:
at `("", "x")` the empty-normalization case, at `("ab", "cd")` the lower
bound. -/
theorem C3_witness :
    string_similarity "" "x" = 0 ∧ 0 ≤ string_similarity "ab" "cd" :=
  ⟨(C3_similarity_range "" "x").2.2 (Or.inl rfl),
   (C3_similarity_range "ab" "cd").1⟩

/-! ### Claim C2 -/

/-- C2 counterexample: the claim quantifies over *every* video/subtitle
pair whose filenames yield equal episodes and differing seasons, but the
exact-match rules of `_score_match` run first.  Here the video stem is
`"[flac S1E2"` (season 1, episode 2), the subtitle stem
`"[flac S1E2.r] 3x2"` (season 3, episode 2 — the `S1E2` inside it sits in
the skip range of the codec ignore pattern, so `3x2` wins); the subtitle
stem starts with the video stem followed by a dot, so rule 2 returns
`(0.99, exact)`, not `(0.2, episode)`. -/
theorem C2_counterexample :
    extract_episode_info (FPath.stem ⟨"", "[flac S1E2.mkv"⟩) = (some 1, some 2) ∧
    extract_episode_info (FPath.stem ⟨"", "[flac S1E2.r] 3x2.ass"⟩) = (some 3, some 2) ∧
    score_match ⟨"", "[flac S1E2.mkv"⟩ ⟨"", "[flac S1E2.r] 3x2.ass"⟩ (some 1) (some 2)
        (extract_show_name (FPath.stem ⟨"", "[flac S1E2.mkv"⟩))
      = (rq 99 100, "exact", "Exact match with language code") ∧
    ((rq 99 100 : ℚ), ("exact" : String)) ≠ (rq 2 10, "episode") := by decide

/-- C2 (amended): for every video/subtitle pair whose filenames both
yield an episode number, with equal episodes, both yield a season, with
differing seasons, *and* which is not caught by the exact-match rules
checked first (equal stems, or subtitle stem extending the video stem by
a dot), the scoring function returns exactly `(0.2, episode)` with the
different-season reason, applying no show-name similarity bonus whatever
the show names are. -/
theorem C2_different_season (video_path sub_path : FPath) (video_show : String)
    (vs ss ve : Nat)
    (hstem : FPath.stem video_path ≠ FPath.stem sub_path)
    (hpre : pyStartsWith (FPath.stem sub_path) (FPath.stem video_path ++ ".") = false)
    (_hvid : extract_episode_info (FPath.stem video_path) = (some vs, some ve))
    (hsub : extract_episode_info (FPath.stem sub_path) = (some ss, some ve))
    (hne : vs ≠ ss) :
    score_match video_path sub_path (some vs) (some ve) video_show
      = (rq 2 10, "episode",
         "Episode match but different season (S" ++ toString vs ++
           " vs S" ++ toString ss ++ ")") := by
  unfold score_match
  rw [hsub]
  rw [if_neg hstem]
  simp only [hpre]
  simp [hne]

/-- C2 witness: the amended theorem applied to `"Show S01E02.mkv"` vs
`"Show S02E02.ass"` (episode 2 in both, season 1 vs season 2). -/
theorem C2_witness :
    score_match ⟨"", "Show S01E02.mkv"⟩ ⟨"", "Show S02E02.ass"⟩ (some 1) (some 2)
        (extract_show_name (FPath.stem ⟨"", "Show S01E02.mkv"⟩))
      = (rq 2 10, "episode", "Episode match but different season (S1 vs S2)") :=
  C2_different_season ⟨"", "Show S01E02.mkv"⟩ ⟨"", "Show S02E02.ass"⟩
    (extract_show_name (FPath.stem ⟨"", "Show S01E02.mkv"⟩)) 1 2 2
    (by decide) (by decide) (by decide) (by decide) (by decide)

/-! ### Claim C4 -/

/-- C4: for every non-empty candidate list, `match_single` with
`strict = True`, when the best candidate score is strictly below `0.9`,
returns a `MatchResult` whose `subtitle_path` is `None` while its
`confidence` equals the best score that was found. -/
theorem C4_strict_preserves_confidence (video_path : FPath)
    (subtitle_candidates : List FPath)
    (h1 : subtitle_candidates ≠ [])
    (h2 : (best_of video_path subtitle_candidates).2.1 < rq 9 10) :
    (match_single video_path subtitle_candidates true).subtitle_path = none ∧
    (match_single video_path subtitle_candidates true).confidence
      = (best_of video_path subtitle_candidates).2.1 := by
  rw [match_single, if_neg h1]
  rw [if_pos (And.intro rfl h2)]
  exact ⟨rfl, rfl⟩

/-- C4 witness: the theorem applied to the video `"aaa.mkv"` with the
single candidate `"bbb.ass"` (best score `0`). -/
theorem C4_witness :
    (match_single ⟨"", "aaa.mkv"⟩ [⟨"", "bbb.ass"⟩] true).subtitle_path = none ∧
    (match_single ⟨"", "aaa.mkv"⟩ [⟨"", "bbb.ass"⟩] true).confidence
      = (best_of ⟨"", "aaa.mkv"⟩ [⟨"", "bbb.ass"⟩]).2.1 :=
  C4_strict_preserves_confidence ⟨"", "aaa.mkv"⟩ [⟨"", "bbb.ass"⟩]
    (by decide) (by decide)

/-! ### Claim C5 -/

/-- Clamping at zero is the max with zero. -/
theorem clamp_eq_max (t : ℤ) : (if t < 0 then 0 else t) = max 0 t := by
  rcases lt_or_le t 0 with h | h
  · rw [if_pos h, max_eq_left h.le]
  · rw [if_neg (not_lt.mpr h), max_eq_right h]

/-- The per-event shift, in max form. -/
theorem shiftEvent_fun (s : ℤ) :
    shiftEvent s = fun e => AssEvent.mk (max 0 (e.start + s)) (max 0 (e.stop + s)) := by
  funext e
  rw [shiftEvent]
  rw [clamp_eq_max, clamp_eq_max]

/-- The per-cue SRT shift, in max form. -/
theorem srtShiftCue_fun (s : ℤ) :
    srtShiftCue s = fun c =>
      ((max 0 ((c.1 : ℤ) + s)).toNat, (max 0 ((c.2 : ℤ) + s)).toNat) := by
  funext c
  rw [srtShiftCue]
  rw [clamp_eq_max, clamp_eq_max]

/-- The shift amount, in Mathlib-operator form. -/
theorem shiftMs_eq (frames : ℤ) (fps : ℚ) :
    qMul (frames : ℚ) (qDiv 1000 fps) = (frames : ℚ) * (1000 / fps) := by
  rw [qMul_eq, qDiv_eq]

/-- C5 counterexample: the claim says the applied shift is
`round(frames * 1000 / fps)`, but the source computes
`int(frames * (1000 / fps))`, which truncates toward zero.  At
`frames = 1` and the default `fps = 23.976` the exact value is
`41.708...`: the code shifts by `41` ms where the claim demands
`round(1000 / 23.976) = 42`. -/
theorem C5_counterexample :
    (shift_subtitle_timing ⟨"", "a.ass"⟩ 1 "u"
        (.ok ⟨none, 0, 0, [], [⟨0, 1000⟩]⟩) (.ok []) .ok).files
      = [(⟨"temp_mux", "a_shifted_u.ass"⟩,
          some (.assC ⟨none, 0, 0, [], [⟨41, 1041⟩]⟩))] ∧
    round ((1 : ℚ) * 1000 / (23976 / 1000 : ℚ)) = 42 ∧
    (41 : ℤ) ≠ 42 := by
  refine ⟨by decide, ?_, by decide⟩
  norm_num [round_eq]

/-- C5 (amended): for every timing-shift request with `frames ≠ 0` on an
ASS/SSA or SRT file that parses, the applied shift is
`shiftMs = int(frames * 1000 / fps)` — truncation toward zero, not
rounding — with `fps` taken from the script's `Timer` field when
parseable as a nonzero float, else `23.976` (always `23.976` for SRT),
and every event's new start and new end are each computed independently
as `max(0, old + shiftMs)`. -/
theorem C5_trunc_shift (sub_path : FPath) (frames : ℤ) (uid : String)
    (doc : AssDoc) (cues : List (ℕ × ℕ)) (pa : Except Unit AssDoc)
    (hf : frames ≠ 0) :
    (pyLower (pySuffix sub_path.name) ∈ [".ass", ".ssa"] → shiftFps doc ≠ 0 →
      shift_subtitle_timing sub_path frames uid (.ok doc) (.ok cues) .ok
        = ⟨shiftedPath sub_path uid,
           [(shiftedPath sub_path uid,
             some (.assC { doc with events := doc.events.map (fun e =>
               ⟨max 0 (e.start + pyIntTrunc ((frames : ℚ) * (1000 / shiftFps doc))),
                max 0 (e.stop + pyIntTrunc ((frames : ℚ) * (1000 / shiftFps doc)))⟩) }))]⟩) ∧
    (pyLower (pySuffix sub_path.name) = ".srt" →
      shift_subtitle_timing sub_path frames uid pa (.ok cues) .ok
        = ⟨shiftedPath sub_path uid,
           [(shiftedPath sub_path uid,
             some (.srtC (cues.map (fun c =>
               ((max 0 ((c.1 : ℤ) +
                   pyIntTrunc ((frames : ℚ) * (1000 / (23976 / 1000 : ℚ))))).toNat,
                (max 0 ((c.2 : ℤ) +
                   pyIntTrunc ((frames : ℚ) * (1000 / (23976 / 1000 : ℚ))))).toNat)))))]⟩) := by
  constructor
  · intro hsx hfps
    unfold shift_subtitle_timing
    rw [if_neg hf, if_pos hsx]
    simp only [if_neg hfps]
    rw [shiftMs_eq, shiftEvent_fun]
  · intro hsrt
    have hnotass : ¬ pyLower (pySuffix sub_path.name) ∈ [".ass", ".ssa"] := by
      rw [hsrt]
      decide
    have h976 : rq 23976 1000 = (23976 / 1000 : ℚ) := by
      rw [rq_eq]
      norm_num
    unfold shift_subtitle_timing
    rw [if_neg hf, if_neg hnotass, if_pos hsrt]
    simp only [srtShiftCue_fun, h976, shiftMs_eq]

/-- C5 witness: the amended theorem applied to an `.ass` file whose
single event runs from `0` to `1000` ms, shifted by one frame at the
default fps. -/
theorem C5_witness :
    shift_subtitle_timing ⟨"", "a.ass"⟩ 1 "u"
        (.ok ⟨none, 0, 0, [], [⟨0, 1000⟩]⟩) (.ok []) .ok
      = ⟨shiftedPath ⟨"", "a.ass"⟩ "u",
         [(shiftedPath ⟨"", "a.ass"⟩ "u",
           some (.assC { (⟨none, 0, 0, [], [⟨0, 1000⟩]⟩ : AssDoc) with
             events := [(⟨0, 1000⟩ : AssEvent)].map (fun e =>
               ⟨max 0 (e.start + pyIntTrunc (((1 : ℤ) : ℚ) *
                   (1000 / shiftFps ⟨none, 0, 0, [], [⟨0, 1000⟩]⟩))),
                max 0 (e.stop + pyIntTrunc (((1 : ℤ) : ℚ) *
                   (1000 / shiftFps ⟨none, 0, 0, [], [⟨0, 1000⟩]⟩)))⟩) }))]⟩ :=
  (C5_trunc_shift ⟨"", "a.ass"⟩ 1 "u" ⟨none, 0, 0, [], [⟨0, 1000⟩]⟩ []
      (.ok ⟨none, 0, 0, [], []⟩) (by decide)).1 (by decide) (by decide)

/-! ### Claim C6 -/

/-- C6: a no-op transform is the identity on the filesystem.
`shift_subtitle_timing` with `frames = 0` returns exactly the input path
and creates no file whatever the other inputs are, and
`resample_ass_subtitle` with the source resolution stored in the script
equal to the (nonzero) target resolution and `force = False` returns
exactly the input path and creates no file; in both cases nothing is
written anywhere, so the input file is untouched. -/
theorem C6_noop (sub_path : FPath) (uid : String) (pa : Except Unit AssDoc)
    (ps : Except Unit (List (ℕ × ℕ))) (w : WriteOutcome)
    (videoRes : ℕ × ℕ) (nr : Bool) (doc : AssDoc)
    (h1 : doc.playResX = videoRes.1) (h2 : doc.playResY = videoRes.2)
    (h3 : videoRes.1 ≠ 0) (h4 : videoRes.2 ≠ 0) :
    shift_subtitle_timing sub_path 0 uid pa ps w = ⟨sub_path, []⟩ ∧
    resample_ass_subtitle sub_path uid videoRes false nr (.ok doc) w
      = ⟨sub_path, []⟩ := by
  constructor
  · unfold shift_subtitle_timing
    rw [if_pos rfl]
  · unfold resample_ass_subtitle
    by_cases hc : pyLower (pySuffix sub_path.name) ≠ ".ass" ∨ nr = true
    · rw [if_pos hc]
    · rw [if_neg hc, if_neg ((not_or).mpr ⟨h3, h4⟩)]
      simp only []
      rw [if_pos ?_]
      refine ⟨by simp, ?_, ?_⟩
      · rw [h1, if_neg h3]
      · rw [h2, if_neg h4]

/-- C6 witness: the theorem applied to an `.ass` file at `1280×720`
matching the probed video resolution. -/
theorem C6_witness :
    shift_subtitle_timing ⟨"", "a.ass"⟩ 0 "u"
        (.ok ⟨none, 1280, 720, [], []⟩) (.ok []) .ok = ⟨⟨"", "a.ass"⟩, []⟩ ∧
    resample_ass_subtitle ⟨"", "a.ass"⟩ "u" (1280, 720) false false
        (.ok ⟨none, 1280, 720, [], []⟩) .ok = ⟨⟨"", "a.ass"⟩, []⟩ :=
  C6_noop ⟨"", "a.ass"⟩ "u" (.ok ⟨none, 1280, 720, [], []⟩) (.ok []) .ok
    (1280, 720) false ⟨none, 1280, 720, [], []⟩ rfl rfl (by decide) (by decide)

/-! ### Claim C7 -/

/-- C7: the claim says every `MatchResult` from `match_single` carries a
non-empty reason, including the case where every candidate scores `0.0`.
The code violates this: `best_reason` starts as the empty string and is
updated only on a strictly greater score, so with one candidate scoring
`0.0` and `strict = False` the returned reason is exactly `""`. -/
theorem C7_empty_reason :
    (match_single ⟨"", "aaa.mkv"⟩ [⟨"", "bbb.ass"⟩] false).reason = "" ∧
    (match_single ⟨"", "aaa.mkv"⟩ [⟨"", "bbb.ass"⟩] false).subtitle_path = none ∧
    (best_of ⟨"", "aaa.mkv"⟩ [⟨"", "bbb.ass"⟩]).2.1 = 0 := by decide

/-! ### Claim C8 -/

/-- C8: a parse failure or a write failure in a timing shift or a
resample is absorbed at the transform boundary: the function returns the
original input path; and a failing resample leaves no file behind (the
partial temp file, when one was created, is deleted before returning —
the failing timing shift only returns the original path and makes no
such deletion guarantee, which matches the claim, which demands the
deletion only for the resample). -/
theorem C8_fail_open (sub_path : FPath) (frames : ℤ) (uid : String)
    (pa : Except Unit AssDoc) (ps : Except Unit (List (ℕ × ℕ))) (w : WriteOutcome)
    (videoRes : ℕ × ℕ) (force nr : Bool)
    (hass : pyLower (pySuffix sub_path.name) ∈ [".ass", ".ssa"] →
      pa = .error () ∨ w ≠ .ok)
    (hsrt : pyLower (pySuffix sub_path.name) = ".srt" →
      ps = .error () ∨ w ≠ .ok) :
    (shift_subtitle_timing sub_path frames uid pa ps w).ret = sub_path ∧
    ((pa = .error () ∨ w ≠ .ok) →
      resample_ass_subtitle sub_path uid videoRes force nr pa w
        = ⟨sub_path, []⟩) := by
  constructor
  · by_cases hf : frames = 0
    · simp [shift_subtitle_timing, hf]
    · by_cases hA : pyLower (pySuffix sub_path.name) ∈ [".ass", ".ssa"]
      · rcases hass hA with hpa | hw
        · subst hpa
          simp [shift_subtitle_timing, hf, hA]
        · rcases pa with u | doc
          · simp [shift_subtitle_timing, hf, hA]
          · by_cases hfps : shiftFps doc = 0
            · simp [shift_subtitle_timing, hf, hA, hfps]
            · cases w with
              | ok => exact absurd rfl hw
              | failPartial => simp [shift_subtitle_timing, hf, hA, hfps]
              | failClean => simp [shift_subtitle_timing, hf, hA, hfps]
      · by_cases hS : pyLower (pySuffix sub_path.name) = ".srt"
        · rcases hsrt hS with hps | hw
          · subst hps
            simp [shift_subtitle_timing, hf, hA, hS]
          · rcases ps with u | cues
            · simp [shift_subtitle_timing, hf, hA, hS]
            · cases w with
              | ok => exact absurd rfl hw
              | failPartial => simp [shift_subtitle_timing, hf, hA, hS]
              | failClean => simp [shift_subtitle_timing, hf, hA, hS]
        · simp [shift_subtitle_timing, hf, hA, hS]
  · intro hfail
    by_cases h0 : pyLower (pySuffix sub_path.name) ≠ ".ass" ∨ nr = true
    · unfold resample_ass_subtitle
      rw [if_pos h0]
    · by_cases hres : videoRes.1 = 0 ∨ videoRes.2 = 0
      · unfold resample_ass_subtitle
        rw [if_neg h0, if_pos hres]
      · rcases hfail with hpa | hw
        · subst hpa
          simp [resample_ass_subtitle, h0, hres]
        · rcases pa with u | doc
          · simp [resample_ass_subtitle, h0, hres]
          · unfold resample_ass_subtitle
            rw [if_neg h0, if_neg hres]
            simp only []
            by_cases hskip : ¬ force = true ∧
                (if doc.playResX = 0 then 1280 else doc.playResX) = videoRes.1 ∧
                (if doc.playResY = 0 then 720 else doc.playResY) = videoRes.2
            · rw [if_pos hskip]
            · rw [if_neg hskip]
              cases w with
              | ok => exact absurd rfl hw
              | failPartial => rfl
              | failClean => rfl

/-- C8 witness: the theorem applied to an `.ass` file whose parse step
raises: both transforms fall back to the input path and the resample
leaves no file. -/
theorem C8_witness :
    (shift_subtitle_timing ⟨"", "a.ass"⟩ 1 "u" (.error ()) (.ok []) .ok).ret
      = ⟨"", "a.ass"⟩ ∧
    resample_ass_subtitle ⟨"", "a.ass"⟩ "u" (1920, 1080) false false
        (.error ()) .ok = ⟨⟨"", "a.ass"⟩, []⟩ := by
  have hmain := C8_fail_open ⟨"", "a.ass"⟩ 1 "u" (.error ()) (.ok []) .ok
    (1920, 1080) false false (fun _ => Or.inl rfl)
    (fun hcon => absurd hcon (by decide))
  exact ⟨hmain.1, hmain.2 (Or.inl rfl)⟩

/-! ### Claim C9 -/

/-- Cancelling a scale factor against its reciprocal. -/
theorem qMul_div_cancel (f a b : ℚ) (ha : a ≠ 0) (hb : b ≠ 0) :
    qMul (qMul f (qDiv a b)) (qDiv b a) = f := by
  rw [qMul_eq, qMul_eq, qDiv_eq, qDiv_eq]
  field_simp

/-- C9 counterexample: the claim says a forced resample `A→B` then `B→A`
restores every style numeric field — including the margins — to within
floating-point rounding tolerance.  The margins are truncated to
integers by `int(...)` on each pass, so they can drift by a whole unit:
a `1280×720` script with margins `10`, resampled to `853×480` and back,
comes back with margins `9` (fontsize, outline, shadow and spacing are
restored exactly). -/
theorem C9_counterexample :
    resample_ass_subtitle ⟨"", "a.ass"⟩ "u" (853, 480) true false
        (.ok ⟨none, 1280, 720, [⟨40, 10, 10, 10, 2, 1, some 0⟩], []⟩) .ok
      = ⟨⟨"temp_mux", "a_resampled_u.ass"⟩,
         [(⟨"temp_mux", "a_resampled_u.ass"⟩,
           some (.assC (resampleDocTransform 853 480
             ⟨none, 1280, 720, [⟨40, 10, 10, 10, 2, 1, some 0⟩], []⟩)))]⟩ ∧
    resample_ass_subtitle ⟨"", "a.ass"⟩ "v" (1280, 720) true false
        (.ok (resampleDocTransform 853 480
          ⟨none, 1280, 720, [⟨40, 10, 10, 10, 2, 1, some 0⟩], []⟩)) .ok
      = ⟨⟨"temp_mux", "a_resampled_v.ass"⟩,
         [(⟨"temp_mux", "a_resampled_v.ass"⟩,
           some (.assC (resampleDocTransform 1280 720 (resampleDocTransform 853 480
             ⟨none, 1280, 720, [⟨40, 10, 10, 10, 2, 1, some 0⟩], []⟩))))]⟩ ∧
    (resampleDocTransform 1280 720 (resampleDocTransform 853 480
        ⟨none, 1280, 720, [⟨40, 10, 10, 10, 2, 1, some 0⟩], []⟩)).styles
      = [⟨40, 9, 9, 9, 2, 1, some 0⟩] ∧
    ((9 : ℚ)) ≠ 10 := by decide

/-- C9 (amended): a forced resample writes exactly the scaled document,
and resampling `A→B` then `B→A` (both dimensions of both resolutions
nonzero) restores the *fractional* style fields — font size, outline,
shadow and spacing — exactly (so in the floating-point implementation,
to within rounding tolerance); the integer-truncated margins are
excluded, since they need not be restored (see the counterexample). -/
theorem C9_roundtrip_fractional (sub_path : FPath) (uid : String)
    (doc : AssDoc) (w h : ℕ)
    (hsuf : pyLower (pySuffix sub_path.name) = ".ass")
    (h1 : doc.playResX ≠ 0) (h2 : doc.playResY ≠ 0) (h3 : w ≠ 0) (h4 : h ≠ 0) :
    resample_ass_subtitle sub_path uid (w, h) true false (.ok doc) .ok
      = ⟨resampledPath sub_path uid,
         [(resampledPath sub_path uid,
           some (.assC (resampleDocTransform w h doc)))]⟩ ∧
    (resampleDocTransform doc.playResX doc.playResY
        (resampleDocTransform w h doc)).styles.map
      (fun st => (st.fontsize, st.outline, st.shadow, st.spacing))
      = doc.styles.map
          (fun st => (st.fontsize, st.outline, st.shadow, st.spacing)) := by
  constructor
  · unfold resample_ass_subtitle
    rw [if_neg ((not_or).mpr ⟨fun hcon => hcon hsuf, by simp⟩)]
    rw [if_neg ((not_or).mpr ⟨h3, h4⟩)]
    simp only []
    rw [if_neg (by simp)]
  · have hwQ : ((w : ℚ)) ≠ 0 := Nat.cast_ne_zero.mpr h3
    have hhQ : ((h : ℚ)) ≠ 0 := Nat.cast_ne_zero.mpr h4
    have hxQ : ((doc.playResX : ℚ)) ≠ 0 := Nat.cast_ne_zero.mpr h1
    have hyQ : ((doc.playResY : ℚ)) ≠ 0 := Nat.cast_ne_zero.mpr h2
    simp only [resampleDocTransform, if_neg h1, if_neg h2]
    simp only [if_neg h3, if_neg h4]
    simp only [List.map_map]
    refine List.map_congr_left ?_
    intro st _
    simp only [Function.comp, resampleStyle]
    refine Prod.ext ?_ (Prod.ext ?_ (Prod.ext ?_ ?_)) <;> dsimp only
    · exact qMul_div_cancel st.fontsize _ _ hhQ hyQ
    · exact qMul_div_cancel st.outline _ _ hhQ hyQ
    · exact qMul_div_cancel st.shadow _ _ hhQ hyQ
    · cases st.spacing with
      | none => rfl
      | some v => exact congrArg some (qMul_div_cancel v _ _ hwQ hxQ)

/-- C9 witness: the amended theorem applied to the `1280×720` script with
one style, resampled through `853×480`. -/
theorem C9_witness :
    (resampleDocTransform 1280 720 (resampleDocTransform 853 480
        ⟨none, 1280, 720, [⟨40, 10, 10, 10, 2, 1, some 0⟩], []⟩)).styles.map
      (fun st => (st.fontsize, st.outline, st.shadow, st.spacing))
      = (⟨none, 1280, 720, [⟨40, 10, 10, 10, 2, 1, some 0⟩], []⟩ : AssDoc).styles.map
          (fun st => (st.fontsize, st.outline, st.shadow, st.spacing)) :=
  (C9_roundtrip_fractional ⟨"", "a.ass"⟩ "u"
    ⟨none, 1280, 720, [⟨40, 10, 10, 10, 2, 1, some 0⟩], []⟩ 853 480
    (by decide) (by decide) (by decide) (by decide) (by decide)).2

/-! ### Claim C10 -/

/-- C10 counterexample: the claim says the resampler returns the input
path unchanged and creates no file for every file whose extension is not
*exactly* `.ass`.  The source lowercases the suffix first, so a file
named `a.ASS` — whose extension is not exactly `.ass` — is resampled:
the call returns a temp-file path different from the input and creates
that file. -/
theorem C10_counterexample :
    pySuffix "a.ASS" = ".ASS" ∧ (".ASS" : String) ≠ ".ass" ∧
    resample_ass_subtitle ⟨"", "a.ASS"⟩ "u" (1920, 1080) false false
        (.ok ⟨none, 1280, 720, [], []⟩) .ok
      = ⟨⟨"temp_mux", "a_resampled_u.ass"⟩,
         [(⟨"temp_mux", "a_resampled_u.ass"⟩,
           some (.assC (resampleDocTransform 1920 1080 ⟨none, 1280, 720, [], []⟩)))]⟩ ∧
    (⟨"temp_mux", "a_resampled_u.ass"⟩ : FPath) ≠ ⟨"", "a.ASS"⟩ := by decide

/-- C10 (amended): `resample_ass_subtitle` returns the input path
unchanged and creates no file for every file whose *lowercased*
extension is not `.ass` — including `.ssa` files, which the timing
shifter does treat as the ASS family — and likewise whenever the probed
target video resolution has a zero width or zero height. -/
theorem C10_lowercased_ass_only (sub_path : FPath) (uid : String)
    (videoRes : ℕ × ℕ) (force nr : Bool) (pa : Except Unit AssDoc)
    (w : WriteOutcome) :
    (pyLower (pySuffix sub_path.name) ≠ ".ass" →
      resample_ass_subtitle sub_path uid videoRes force nr pa w
        = ⟨sub_path, []⟩) ∧
    (videoRes.1 = 0 ∨ videoRes.2 = 0 →
      resample_ass_subtitle sub_path uid videoRes force nr pa w
        = ⟨sub_path, []⟩) ∧
    (∀ (frames : ℤ) (uid2 : String) (doc : AssDoc)
        (ps : Except Unit (List (ℕ × ℕ))),
      frames ≠ 0 → pyLower (pySuffix sub_path.name) = ".ssa" →
      shiftFps doc ≠ 0 →
      (shift_subtitle_timing sub_path frames uid2 (.ok doc) ps .ok).ret
        = shiftedPath sub_path uid2) := by
  refine ⟨?_, ?_, ?_⟩
  · intro hsuf
    unfold resample_ass_subtitle
    rw [if_pos (Or.inl hsuf)]
  · intro hres
    unfold resample_ass_subtitle
    by_cases h0 : pyLower (pySuffix sub_path.name) ≠ ".ass" ∨ nr = true
    · rw [if_pos h0]
    · rw [if_neg h0, if_pos hres]
  · intro frames uid2 doc ps hf hssa hfps
    have hin : pyLower (pySuffix sub_path.name) ∈ [".ass", ".ssa"] := by
      rw [hssa]
      decide
    unfold shift_subtitle_timing
    rw [if_neg hf, if_pos hin]
    simp only [if_neg hfps]

/-- C10 witness: the amended theorem applied to a `.ssa` file: the
resampler passes it through untouched while the timing shifter rewrites
it to a temp file. -/
theorem C10_witness :
    resample_ass_subtitle ⟨"", "b.ssa"⟩ "u" (1920, 1080) false false
        (.ok ⟨none, 1280, 720, [], []⟩) .ok = ⟨⟨"", "b.ssa"⟩, []⟩ ∧
    (shift_subtitle_timing ⟨"", "b.ssa"⟩ 1 "u"
        (.ok ⟨none, 1280, 720, [], []⟩) (.ok []) .ok).ret
      = shiftedPath ⟨"", "b.ssa"⟩ "u" := by
  have hmain := C10_lowercased_ass_only ⟨"", "b.ssa"⟩ "u" (1920, 1080)
    false false (.ok ⟨none, 1280, 720, [], []⟩) .ok
  exact ⟨hmain.1 (by decide),
    hmain.2.2 1 "u" ⟨none, 1280, 720, [], []⟩ (.ok []) (by decide) (by decide)
      (by decide)⟩

end Muxxy
